import Mathlib

/-!
Shallow embedding of the brisc assembler (src/src/lexer.rs, sources.rs,
ast.rs, instructions.rs, parser.rs, generator.rs, errors.rs, main.rs).

The lexer advances a character index (Rust peek_char uses chars().skip),
so the source text is modelled as a list of characters and spans carry
character indices.  Byte-level views (UTF-8) are modelled separately for
SourceManager.get_span, which slices the raw byte buffer.

Rust char::is_alphabetic / is_alphanumeric / to_lowercase are Unicode
aware; the model uses the ASCII classifiers, which agree with them on
every ASCII character.  All universally quantified statements that go
through the lexer or parser are either at the item level or restricted
to ASCII inputs, where the two coincide.
-/

namespace Brisc

structure Span where
  index : Nat
  len : Nat
deriving DecidableEq, Repr

inductive TokenType where
  | Identifier
  | Label
  | Comma
  | Integer
  | Newline
  | Comment
  | InvalidTokenError
  | InvalidIntegerError
deriving DecidableEq, Repr

structure Token where
  tt : TokenType
  span : Span
deriving DecidableEq, Repr

/-- Rust char::is_alphabetic, restricted to the ASCII fragment. -/
def is_alphabetic (c : Char) : Bool := c.isAlpha

/-- Rust char::is_alphanumeric, restricted to the ASCII fragment. -/
def is_alphanumeric (c : Char) : Bool := c.isAlphanum

/-- The identifier-continuation characters of Lexer::lex_identifier. -/
def isIdentCont (c : Char) : Bool := is_alphanumeric c || c = '_' || c = '-'

/-- One step of Lexer::lex per fuel unit; every step consumes at least one
character, so fuel equal to the character count is always enough. -/
def lexGo : Nat → Nat → List Char → List Token
  | 0, _, _ => []
  | _ + 1, _, [] => []
  | fuel + 1, idx, c :: rest =>
    if c = '\r' || c = '\t' || c = ' ' then
      lexGo fuel (idx + 1) rest
    else if c = '\n' then
      { tt := .Newline, span := ⟨idx, 1⟩ } :: lexGo fuel (idx + 1) rest
    else if c = ',' then
      { tt := .Comma, span := ⟨idx, 1⟩ } :: lexGo fuel (idx + 1) rest
    else if c = ';' then
      let body := rest.takeWhile (fun d => d ≠ '\n')
      { tt := .Comment, span := ⟨idx, 1 + body.length⟩ } ::
        lexGo fuel (idx + 1 + body.length) (rest.drop body.length)
    else if c.isDigit then
      let run := rest.takeWhile (fun d => d.isDigit || is_alphabetic d)
      let tt := if run.all Char.isDigit then TokenType.Integer
                else TokenType.InvalidIntegerError
      { tt := tt, span := ⟨idx, 1 + run.length⟩ } ::
        lexGo fuel (idx + 1 + run.length) (rest.drop run.length)
    else if is_alphabetic c then
      let run := rest.takeWhile isIdentCont
      match rest.drop run.length with
      | ':' :: after =>
        { tt := .Label, span := ⟨idx, run.length + 2⟩ } ::
          lexGo fuel (idx + run.length + 2) after
      | after =>
        { tt := .Identifier, span := ⟨idx, 1 + run.length⟩ } ::
          lexGo fuel (idx + 1 + run.length) after
    else
      { tt := .InvalidTokenError, span := ⟨idx, 1⟩ } :: lexGo fuel (idx + 1) rest

/-- Lexer::lex over the whole source. -/
def lex (src : List Char) : List Token := lexGo src.length 0 src

/-- The UTF-8 encoding of one character, as Rust str bytes. -/
def charUtf8 (c : Char) : List Nat :=
  let n := c.toNat
  if n < 128 then [n]
  else if n < 2048 then [192 + n / 64, 128 + n % 64]
  else if n < 65536 then [224 + n / 4096, 128 + n / 64 % 64, 128 + n % 64]
  else [240 + n / 262144, 128 + n / 4096 % 64, 128 + n / 64 % 64, 128 + n % 64]

/-- The UTF-8 byte buffer of the source text. -/
def utf8Bytes (s : List Char) : List Nat := (s.map charUtf8).flatten

/-- SourceManager::get_span: bounds-checks against the byte length and
slices the byte buffer at the span. -/
def get_span (src : List Char) (s : Span) : Option (List Nat) :=
  let bytes := utf8Bytes src
  if s.index + s.len ≤ bytes.length then
    some ((bytes.drop s.index).take s.len)
  else
    none

/-- The characters the lexer consumed for a span (the lexeme).  On an
all-ASCII source this is exactly what get_span slices, because there the
character index of every span equals its byte index. -/
def spanText (src : List Char) (s : Span) : List Char :=
  (src.drop s.index).take s.len

abbrev Register := Fin 16

def Register.encode (r : Register) : Nat := r.val

/-- Register::try_from on the lowercased operand text. -/
def register_try_from (s : List Char) : Option Register :=
  match s with
  | ['r', '0'] => some 0
  | ['r', '1'] => some 1
  | ['r', '2'] => some 2
  | ['r', '3'] => some 3
  | ['r', '4'] => some 4
  | ['r', '5'] => some 5
  | ['r', '6'] => some 6
  | ['r', '7'] => some 7
  | ['r', '8'] => some 8
  | ['r', '9'] => some 9
  | ['r', '1', '0'] => some 10
  | ['r', '1', '1'] => some 11
  | ['r', '1', '2'] => some 12
  | ['r', '1', '3'] => some 13
  | ['r', '1', '4'] => some 14
  | ['r', '1', '5'] => some 15
  | _ => none

inductive Opcode where
  | Nop
  | Add
  | Ldi
  | Sub
  | And
  | Or
  | Inv
  | Xor
  | Sr
  | Sl
  | In
  | Out
  | Jz
  | Jlt
  | J
deriving DecidableEq, Repr

/-- Opcode::encode, the fixed high-nibble mapping (value 4 is unused). -/
def Opcode.encode : Opcode → Nat
  | .Nop => 0
  | .Add => 1
  | .Ldi => 2
  | .Sub => 3
  | .And => 5
  | .Or => 6
  | .Inv => 7
  | .Xor => 8
  | .Sr => 9
  | .Sl => 10
  | .In => 11
  | .Out => 12
  | .Jz => 13
  | .Jlt => 14
  | .J => 15

/-- Opcode::try_from on the lowercased mnemonic text. -/
def opcode_try_from (s : List Char) : Option Opcode :=
  match s with
  | ['n', 'o', 'p'] => some .Nop
  | ['a', 'd', 'd'] => some .Add
  | ['l', 'd', 'i'] => some .Ldi
  | ['s', 'u', 'b'] => some .Sub
  | ['a', 'n', 'd'] => some .And
  | ['o', 'r'] => some .Or
  | ['i', 'n', 'v'] => some .Inv
  | ['x', 'o', 'r'] => some .Xor
  | ['s', 'r'] => some .Sr
  | ['s', 'l'] => some .Sl
  | ['i', 'n'] => some .In
  | ['o', 'u', 't'] => some .Out
  | ['j', 'z'] => some .Jz
  | ['j', 'l', 't'] => some .Jlt
  | ['j'] => some .J
  | _ => none

inductive OperandType where
  | Register
  | Integer
  | Label
deriving DecidableEq, Repr

/-- OperandType::as_str. -/
def OperandType.as_str : OperandType → List Char
  | .Register => ['r', 'e', 'g', 'i', 's', 't', 'e', 'r']
  | .Integer => ['i', 'n', 't', 'e', 'g', 'e', 'r']
  | .Label => ['l', 'a', 'b', 'e', 'l']

/-- The static operand-rule table of src/src/instructions.rs, as consulted
through the parse_rules map built in Parser::new. -/
def parse_rules : Opcode → List (List OperandType)
  | .Nop => []
  | .Add => [[.Register], [.Register]]
  | .Ldi => [[.Register], [.Integer]]
  | .Sub => [[.Register], [.Register]]
  | .And => [[.Register], [.Register]]
  | .Or => [[.Register], [.Register]]
  | .Inv => [[.Register]]
  | .Xor => [[.Register], [.Register]]
  | .Sr => [[.Register], [.Register]]
  | .Sl => [[.Register], [.Register]]
  | .In => [[.Register], [.Integer]]
  | .Out => [[.Register], [.Integer]]
  | .Jz => [[.Register], [.Integer, .Label]]
  | .Jlt => [[.Register], [.Integer, .Label]]
  | .J => [[.Integer, .Label]]

abbrev LabelId := Nat

inductive Operand where
  | register (value : Register) (span : Span)
  | integer (value : Int) (span : Span)
  | label (value : LabelId) (span : Span)
deriving DecidableEq, Repr

inductive Instruction where
  | NoOperand (op : Opcode)
  | SingleOperand (op : Opcode) (o : Operand)
  | DoubleOperand (op : Opcode) (o1 o2 : Operand)
deriving DecidableEq, Repr

/-- Instruction::opcode. -/
def Instruction.opcode : Instruction → Opcode
  | .NoOperand op => op
  | .SingleOperand op _ => op
  | .DoubleOperand op _ _ => op

inductive Item where
  | label (id : LabelId)
  | instruction (instr : Instruction)
deriving DecidableEq, Repr

structure LabelEntry where
  name : List Char
  defSpan : Option Span
  value : Option Int
deriving DecidableEq, Repr

structure LabelManager where
  map : List LabelEntry
deriving DecidableEq, Repr

/-- LabelManager::get_id_of (src/src/main.rs): position of the first
entry carrying the name. -/
def LabelManager.get_id_of (lm : LabelManager) (label : List Char) : Option LabelId :=
  lm.map.findIdx? (fun e => e.name = label)

/-- LabelManager::get_or_insert_reference (src/src/main.rs): reuse the id
of an existing entry, otherwise append a row with no span and no value. -/
def LabelManager.get_or_insert_reference (lm : LabelManager) (label : List Char) :
    LabelId × LabelManager :=
  if lm.map.any (fun e => e.name = label) then
    ((lm.get_id_of label).getD 0, lm)
  else
    (lm.map.length, ⟨lm.map ++ [⟨label, none, none⟩]⟩)

/-- Modelled from the spec: insert_unique of the span-aware label table
(spec section 3 — a definition records its span; the src main.rs copy of
LabelManager predates spans and takes only the name). -/
def LabelManager.insert_unique (lm : LabelManager) (label : List Char) (s : Span) :
    Option (LabelId × LabelManager) :=
  if lm.map.any (fun e => e.name = label) then none
  else some (lm.map.length, ⟨lm.map ++ [⟨label, some s, none⟩]⟩)

def listModify (l : List α) (i : Nat) (f : α → α) : List α :=
  match l, i with
  | [], _ => []
  | a :: t, 0 => f a :: t
  | a :: t, n + 1 => a :: listModify t n f

/-- Modelled from the spec: get_span_of of the span-aware label table
(spec section 3 — definition span, filled at definition time). -/
def LabelManager.get_span_of (lm : LabelManager) (id : LabelId) : Option Span :=
  (lm.map.get? id).bind (fun e => e.defSpan)

/-- Modelled from the spec: set_span_of of the span-aware label table;
fails (Err, unwrapped by the parser) when the id is out of range. -/
def LabelManager.set_span_of (lm : LabelManager) (id : LabelId) (s : Span) :
    Option LabelManager :=
  if id < lm.map.length then
    some ⟨listModify lm.map id (fun e => { e with defSpan := some s })⟩
  else none

/-- Modelled from the spec: set_value_of, the generator-side value fill;
fails (Err, unwrapped by the generator) when the id is out of range. -/
def LabelManager.set_value_of (lm : LabelManager) (id : LabelId) (v : Int) :
    Option LabelManager :=
  if id < lm.map.length then
    some ⟨listModify lm.map id (fun e => { e with value := some v })⟩
  else none

/-- LabelManager::get_value_of (src/src/main.rs, with the value stored as
the signed 8-bit integer the generator writes). -/
def LabelManager.get_value_of (lm : LabelManager) (id : LabelId) : Option Int :=
  (lm.map.get? id).bind (fun e => e.value)

inductive ParseError where
  | UnexpectedToken (expected : TokenType) (t : Token)
  | MissingToken (expected : TokenType)
  | InvalidInstruction (t : Token)
  | ExpectedInstructionBeforeLabel (t : Token)
  | DuplicateLabel (t : Token)
  | ExpectedInstruction (t : Token)
  | ExpectedNoOperands (t : Token)
  | ExpectedOperandFoundEOF (t : Token)
  | ExpectedOperand (t : Token) (expected : List Char)
  | ExpectedRegister (t : Token)
  | IntegerOutOfRange (t : Token)
deriving DecidableEq, Repr

inductive GeneratorError where
  | SourceOrSinkRangeError (s : Span)
  | DanglingLabelError (s : Span)
  | MaximumInstructionsError
  | UndefinedLabelError (s : Span)
  | JumpDestinationRangeError (s : Span)
deriving DecidableEq, Repr

/-- The combined failure channel: user-facing parse and generator errors,
plus internalFault for the panic branches the spec classifies as
internal-consistency violations. -/
inductive AsmError where
  | parseFailure (e : ParseError)
  | genFailure (e : GeneratorError)
  | internalFault
deriving DecidableEq, Repr

deriving instance DecidableEq for Except

/-- Rust str::to_lowercase, ASCII fragment. -/
def toLowerStr (s : List Char) : List Char := s.map Char.toLower

/-- Rust i8 from-string parsing as applied to the digit-only lexemes an
Integer token can carry: succeeds exactly on values up to 127.  Sign
characters never occur in an Integer lexeme (the lexer only groups
digits), so the signed branches of the Rust parser are unreachable. -/
def parse_i8 (s : List Char) : Option Int :=
  if s ≠ [] ∧ s.all Char.isDigit then
    let n : Nat := s.foldl (fun a c => a * 10 + (c.toNat - 48)) 0
    if n ≤ 127 then some (n : Int) else none
  else none

/-- The expected token kinds computed at the top of Parser::parse_operand. -/
def expected_token_types (rule : List OperandType) : List TokenType :=
  rule.map (fun ot =>
    match ot with
    | .Integer => TokenType.Integer
    | .Label => TokenType.Identifier
    | .Register => TokenType.Identifier)

/-- The expected-kind description built in Parser::parse_operand when the
next token matches none of the accepted kinds.  The two-entry arm of the
source interpolates operand_rule[0] for both placeholders, which this
definition mirrors verbatim; none models the panic for other lengths. -/
def expected_description (rule : List OperandType) : Option (List Char) :=
  match rule with
  | [a] => some a.as_str
  | [a, _] => some (a.as_str ++ [' ', 'o', 'r', ' '] ++ a.as_str)
  | [a, b, c] =>
    some (a.as_str ++ [',', ' '] ++ b.as_str ++ [' ', 'o', 'r', ' '] ++ c.as_str)
  | _ => none

/-- Parser::parse_operand. -/
def parse_operand (src : List Char) (lm : LabelManager) (instruction_token : Token)
    (rule : List OperandType) (toks : List Token) :
    Except AsmError (Operand × LabelManager × List Token) :=
  match toks with
  | [] => .error (.parseFailure (.ExpectedOperandFoundEOF instruction_token))
  | next :: rest =>
    if (expected_token_types rule).any (fun t => t = next.tt) then
      let text := toLowerStr (spanText src next.span)
      if next.tt = TokenType.Identifier then
        match (if rule.contains OperandType.Register then register_try_from text else none) with
        | some reg => .ok (.register reg next.span, lm, rest)
        | none =>
          if rule.contains OperandType.Label then
            let (id, lm2) := lm.get_or_insert_reference text
            .ok (.label id next.span, lm2, rest)
          else if rule.contains OperandType.Register then
            .error (.parseFailure (.ExpectedRegister next))
          else
            .error .internalFault
      else if next.tt = TokenType.Integer then
        match parse_i8 text with
        | some v => .ok (.integer v next.span, lm, rest)
        | none => .error (.parseFailure (.IntegerOutOfRange next))
      else
        .error .internalFault
    else
      match expected_description rule with
      | some d => .error (.parseFailure (.ExpectedOperand next d))
      | none => .error .internalFault

/-- Parser::expect_token. -/
def expect_token (tt : TokenType) (toks : List Token) : Except AsmError (List Token) :=
  match toks with
  | [] => .error (.parseFailure (.MissingToken tt))
  | next :: rest =>
    if next.tt ≠ tt then .error (.parseFailure (.UnexpectedToken tt next))
    else .ok rest

/-- Parser::consume_or_eof. -/
def consume_or_eof (tt : TokenType) (toks : List Token) : Except AsmError (List Token) :=
  match toks with
  | [] => .ok []
  | next :: rest =>
    if next.tt ≠ tt then .error (.parseFailure (.UnexpectedToken tt next))
    else .ok rest

/-- Parser::parse_instruction; next is the already-fetched first token of
the instruction (the source takes it with tokens_iter.next()). -/
def parse_instruction (src : List Char) (lm : LabelManager) (next : Token)
    (rest : List Token) : Except AsmError (Instruction × LabelManager × List Token) :=
  if next.tt ≠ TokenType.Identifier then
    .error (.parseFailure (.ExpectedInstruction next))
  else
    let text := toLowerStr (spanText src next.span)
    match opcode_try_from text with
    | none => .error (.parseFailure (.InvalidInstruction next))
    | some opcode =>
      match parse_rules opcode with
      | [] =>
        match rest with
        | [] => .ok (.NoOperand opcode, lm, [])
        | t :: rest2 =>
          if t.tt = TokenType.Newline then .ok (.NoOperand opcode, lm, t :: rest2)
          else .error (.parseFailure (.ExpectedNoOperands t))
      | [r0] => do
        let (o, lm2, rest2) ← parse_operand src lm next r0 rest
        .ok (.SingleOperand opcode o, lm2, rest2)
      | [r0, r1] => do
        let (o1, lm1, rest1) ← parse_operand src lm next r0 rest
        let rest2 ← expect_token TokenType.Comma rest1
        let (o2, lm2, rest3) ← parse_operand src lm1 next r1 rest2
        .ok (.DoubleOperand opcode o1 o2, lm2, rest3)
      | _ => .error .internalFault

/-- The label-definition bookkeeping of Parser::parse_line (the branch
taken when the line starts with a Label token). -/
def handle_label_def (src : List Char) (lm : LabelManager) (next : Token) :
    Except AsmError (LabelId × LabelManager) :=
  let label_text := (spanText src next.span).dropLast
  match lm.get_id_of label_text with
  | some id =>
    if (lm.get_span_of id).isSome then
      .error (.parseFailure (.DuplicateLabel next))
    else
      match lm.set_span_of id next.span with
      | some lm2 => .ok (id, lm2)
      | none => .error .internalFault
  | none =>
    match lm.insert_unique label_text next.span with
    | some (id, lm2) => .ok (id, lm2)
    | none => .error (.parseFailure (.DuplicateLabel next))

/-- Parser::parse_line; next is the peeked first token of the line.  The
just_saw_label flag is set when a label is handled and is never cleared
anywhere, exactly as in the source. -/
def parse_line (src : List Char) (next : Token) (rest0 : List Token)
    (lm : LabelManager) (jsl : Bool) :
    Except AsmError (List Item × List Token × LabelManager × Bool) :=
  if next.tt = TokenType.Newline then
    .ok ([], rest0, lm, jsl)
  else if next.tt = TokenType.Label then
    if jsl then .error (.parseFailure (.ExpectedInstructionBeforeLabel next))
    else do
      let (id, lm1) ← handle_label_def src lm next
      match rest0 with
      | [] => .ok ([Item.label id], [], lm1, true)
      | t :: ts =>
        if t.tt = TokenType.Newline then
          .ok ([Item.label id], ts, lm1, true)
        else do
          let (instr, lm2, rest2) ← parse_instruction src lm1 t ts
          let rest3 ← consume_or_eof TokenType.Newline rest2
          .ok ([Item.label id, Item.instruction instr], rest3, lm2, true)
  else do
    let (instr, lm1, rest1) ← parse_instruction src lm next rest0
    let rest2 ← consume_or_eof TokenType.Newline rest1
    .ok ([Item.instruction instr], rest2, lm1, jsl)

/-- The while loop of Parser::parse; every parse_line call consumes at
least one token, so fuel equal to the token count is always enough. -/
def parse_go (src : List Char) : Nat → List Token → LabelManager → Bool → List Item →
    Except AsmError (List Item × LabelManager)
  | _, [], lm, _, acc => .ok (acc, lm)
  | 0, _ :: _, _, _, _ => .error .internalFault
  | fuel + 1, next :: rest, lm, jsl, acc => do
    let (items, rest2, lm2, jsl2) ← parse_line src next rest lm jsl
    parse_go src fuel rest2 lm2 jsl2 (acc ++ items)

/-- Parser::parse over a filtered token stream. -/
def parse (src : List Char) (toks : List Token) :
    Except AsmError (List Item × LabelManager) :=
  parse_go src toks.length toks ⟨[]⟩ false []

def INSTRUCTION_MEMORY_SIZE_BYTES : Int := 64

def INSTRUCTION_SIZE_BYTES : Int := 2

def MAX_NUM_INSTRUCTIONS : Int :=
  INSTRUCTION_MEMORY_SIZE_BYTES / INSTRUCTION_SIZE_BYTES

/-- The first pass of Generator::generate: assign each label the current
instruction counter, enforce the 32-instruction maximum, and reject a
trailing label (dangling). -/
def pass1 : List Item → LabelManager → Int → Option LabelId →
    Except AsmError LabelManager
  | [], lm, _, ended =>
    match ended with
    | some id =>
      match lm.get_span_of id with
      | some s => .error (.genFailure (.DanglingLabelError s))
      | none => .error .internalFault
    | none => .ok lm
  | .label id :: rest, lm, ctr, _ =>
    match lm.set_value_of id ctr with
    | some lm2 => pass1 rest lm2 ctr (some id)
    | none => .error .internalFault
  | .instruction _ :: rest, lm, ctr, _ =>
    if ctr + 1 > MAX_NUM_INSTRUCTIONS then
      .error (.genFailure .MaximumInstructionsError)
    else
      pass1 rest lm (ctr + 1) none

/-- Rust i8-to-u8 cast (twos-complement byte value). -/
def toU8 (v : Int) : Nat := (v % 256).toNat

/-- Rust u8-bit-pattern-to-i8 cast, used for the shifted port value. -/
def i8_of_bits (n : Nat) : Int :=
  if n % 256 < 128 then (n % 256 : Int) else (n % 256 : Int) - 256

/-- Generator::generate_immediate; the bitwise or of the shifted opcode
and the register equals their sum because the register is below 16. -/
def generate_immediate (op : Opcode) (reg : Register) (value : Int) : Nat × Nat :=
  (op.encode * 16 + reg.encode, toU8 value)

/-- Generator::generate_single_register. -/
def generate_single_register (op : Opcode) (reg : Register) : Nat × Nat :=
  generate_immediate op reg 0

/-- Generator::generate_no_operand. -/
def generate_no_operand (op : Opcode) : Nat × Nat :=
  generate_immediate op 0 0

/-- Generator::generate_double_register. -/
def generate_double_register (op : Opcode) (r1 r2 : Register) : Nat × Nat :=
  (op.encode * 16 + r1.encode, r2.encode * 16)

/-- Generator::generate_io: none models the Err for a port above 15; the
emitted second byte is the i8 left shift of the port by four, cast back
to a byte. -/
def generate_io (op : Opcode) (reg : Register) (source_or_sink : Nat) :
    Option (Nat × Nat) :=
  if source_or_sink > 15 then none
  else some (generate_immediate op reg (i8_of_bits (source_or_sink * 16)))

/-- The per-instruction encoding branch of the second pass of
Generator::generate; every source panic branch is internalFault. -/
def encode_instruction (lm : LabelManager) (i : Instruction) :
    Except AsmError (Nat × Nat) :=
  match i with
  | .NoOperand op =>
    if op ≠ Opcode.Nop then .error .internalFault
    else .ok (generate_no_operand op)
  | .SingleOperand op operand =>
    if op = Opcode.Inv then
      match operand with
      | .register r _ => .ok (generate_single_register op r)
      | _ => .error .internalFault
    else if op = Opcode.J then
      match operand with
      | .integer v _ => .ok (generate_immediate op 0 v)
      | .label id s =>
        match lm.get_value_of id with
        | some v => .ok (generate_immediate op 0 v)
        | none => .error (.genFailure (.UndefinedLabelError s))
      | _ => .error .internalFault
    else
      .error .internalFault
  | .DoubleOperand op o1 o2 =>
    match op with
    | .Add | .Sub | .And | .Or | .Xor | .Sr | .Sl =>
      match o1, o2 with
      | .register r1 _, .register r2 _ => .ok (generate_double_register op r1 r2)
      | _, _ => .error .internalFault
    | .Jz | .Jlt =>
      match o1 with
      | .register r _ =>
        match o2 with
        | .label id s =>
          match lm.get_value_of id with
          | some v => .ok (generate_immediate op r v)
          | none => .error (.genFailure (.UndefinedLabelError s))
        | .integer v s =>
          if v < MAX_NUM_INSTRUCTIONS then .ok (generate_immediate op r v)
          else .error (.genFailure (.JumpDestinationRangeError s))
        | _ => .error .internalFault
      | _ => .error .internalFault
    | .Ldi =>
      match o1, o2 with
      | .register r _, .integer v _ => .ok (generate_immediate op r v)
      | _, _ => .error .internalFault
    | .In | .Out =>
      match o1, o2 with
      | .register r _, .integer v s =>
        match generate_io op r (toU8 v) with
        | some bytes => .ok bytes
        | none => .error (.genFailure (.SourceOrSinkRangeError s))
      | _, _ => .error .internalFault
    | _ => .error .internalFault

/-- The second pass of Generator::generate: two bytes per instruction
item, label items emit nothing. -/
def pass2 (lm : LabelManager) : List Item → Except AsmError (List Nat)
  | [] => .ok []
  | .label _ :: rest => pass2 lm rest
  | .instruction i :: rest => do
    let (b1, b2) ← encode_instruction lm i
    let bs ← pass2 lm rest
    .ok (b1 :: b2 :: bs)

/-- Generator::generate. -/
def generate (items : List Item) (lm : LabelManager) : Except AsmError (List Nat) := do
  let lm2 ← pass1 items lm 0 none
  pass2 lm2 items

/-- The number of instruction items (spec: N). -/
def instr_count (items : List Item) : Nat :=
  items.countP (fun i =>
    match i with
    | .instruction _ => true
    | _ => false)

/-- The token filtering of main: comments and the two invalid-token kinds
are excluded before the stream is handed to the parser. -/
def filter_tokens (toks : List Token) : List Token :=
  toks.filter (fun t =>
    t.tt != TokenType.Comment &&
    t.tt != TokenType.InvalidTokenError &&
    t.tt != TokenType.InvalidIntegerError)

/-- Modelled from the spec: the driver zero-fills the generated bytes to
the fixed 64-byte instruction image (spec section 6); the src main.rs is
a stale driver that predates the generator and lacks this step. -/
def padTo64 (bytes : List Nat) : List Nat :=
  bytes ++ List.replicate (64 - bytes.length) 0

/-- The whole pipeline: lex, filter, parse, generate, pad. -/
def assemble (src : List Char) : Except AsmError (List Nat) := do
  let toks := filter_tokens (lex src)
  let (items, lm) ← parse src toks
  let bytes ← generate items lm
  .ok (padTo64 bytes)

structure Diagnostic where
  label : List Char
  label_span : Option Span
deriving DecidableEq, Repr

/-- The Debug rendering of a token type, as the braced placeholder of the
Rust format strings prints it. -/
def TokenType.debugStr : TokenType → List Char
  | .Identifier => ("Identifier").toList
  | .Label => ("Label").toList
  | .Comma => ("Comma").toList
  | .Integer => ("Integer").toList
  | .Newline => ("Newline").toList
  | .Comment => ("Comment").toList
  | .InvalidTokenError => ("InvalidTokenError").toList
  | .InvalidIntegerError => ("InvalidIntegerError").toList

/-- parse_error_into_diagnostic (src/src/errors.rs), with the interpolated
source text read at character level (equal to the byte-level get_span on
ASCII sources). -/
def parse_error_into_diagnostic (src : List Char) (e : ParseError) : Diagnostic :=
  match e with
  | .MissingToken tt =>
    ⟨("Expected `").toList ++ tt.debugStr ++ ("`, found the end of file").toList, none⟩
  | .UnexpectedToken tt t =>
    ⟨("Expected `").toList ++ tt.debugStr ++ ("`, found `").toList ++
      spanText src t.span ++ ("`").toList, some t.span⟩
  | .InvalidInstruction t =>
    ⟨("`").toList ++ spanText src t.span ++ ("` is not a valid instruction").toList,
      some t.span⟩
  | .ExpectedInstructionBeforeLabel t =>
    ⟨("Expected instruction after label, found second label `").toList ++
      spanText src t.span ++ ("`").toList, some t.span⟩
  | .DuplicateLabel t =>
    ⟨("Duplicate label `").toList ++ spanText src t.span ++ ("`").toList, some t.span⟩
  | .ExpectedNoOperands t =>
    ⟨("Instruction takes no operands, found `").toList ++
      spanText src t.span ++ ("`").toList, some t.span⟩
  | .ExpectedInstruction t =>
    ⟨("Expected an instruction, found `").toList ++
      spanText src t.span ++ ("`").toList, some t.span⟩
  | .ExpectedOperand t expected =>
    ⟨("Expected instruction operand (one of ").toList ++ expected ++
      ("), found `").toList ++ spanText src t.span ++ ("`").toList, some t.span⟩
  | .ExpectedOperandFoundEOF t =>
    ⟨("Expected instruction operand for `").toList ++ spanText src t.span ++
      ("`, found end of file").toList, some t.span⟩
  | .ExpectedRegister t =>
    ⟨("Expected register for instruction operand, found `").toList ++
      spanText src t.span ++ ("`").toList, some t.span⟩
  | .IntegerOutOfRange t =>
    ⟨("Value is out of range for an 8-bit signed integer value").toList,
      some t.span⟩

/-- The value the layout pass left for a label id after parsing and the
first generator pass, observed through the label table. -/
def label_value_after_layout (src : List Char) (id : LabelId) : Option Int :=
  match parse src (filter_tokens (lex src)) with
  | .ok (items, lm) =>
    match pass1 items lm 0 none with
    | .ok lm2 => lm2.get_value_of id
    | _ => none
  | _ => none

/-- C4: the opcode encoding is the exact fixed mapping Nop 0, Add 1, Ldi 2,
Sub 3, And 5, Or 6, Inv 7, Xor 8, Sr 9, Sl 10, In 11, Out 12, Jz 13,
Jlt 14, J 15, and no opcode encodes to 4. -/
theorem C4_opcode_encoding :
    Opcode.encode .Nop = 0 ∧ Opcode.encode .Add = 1 ∧ Opcode.encode .Ldi = 2 ∧
    Opcode.encode .Sub = 3 ∧ Opcode.encode .And = 5 ∧ Opcode.encode .Or = 6 ∧
    Opcode.encode .Inv = 7 ∧ Opcode.encode .Xor = 8 ∧ Opcode.encode .Sr = 9 ∧
    Opcode.encode .Sl = 10 ∧ Opcode.encode .In = 11 ∧ Opcode.encode .Out = 12 ∧
    Opcode.encode .Jz = 13 ∧ Opcode.encode .Jlt = 14 ∧ Opcode.encode .J = 15 ∧
    ∀ op : Opcode, Opcode.encode op ≠ 4 := by
  refine ⟨rfl, rfl, rfl, rfl, rfl, rfl, rfl, rfl, rfl, rfl, rfl, rfl, rfl, rfl,
    rfl, ?_⟩
  intro op
  cases op <;> simp [Opcode.encode]

/-- C5: the out-of-range inputs in r0, 16 / jz r0, 32 / ldi r0, 200 fail
with the source-or-sink range error, the jump-destination range error and
IntegerOutOfRange respectively; the in-range counterparts pass; the port
check fails exactly above 15 and the Jz destination check exactly at or
above 32; parse_i8 rejects 200 and accepts 127. -/
theorem C5_range_checks :
    assemble ("in r0, 16").toList =
      .error (.genFailure (.SourceOrSinkRangeError ⟨7, 2⟩)) ∧
    assemble ("jz r0, 32").toList =
      .error (.genFailure (.JumpDestinationRangeError ⟨7, 2⟩)) ∧
    assemble ("ldi r0, 200").toList =
      .error (.parseFailure (.IntegerOutOfRange ⟨.Integer, ⟨8, 3⟩⟩)) ∧
    assemble ("in r0, 15").toList = .ok (176 :: 240 :: List.replicate 62 0) ∧
    assemble ("jz r0, 31").toList = .ok (208 :: 31 :: List.replicate 62 0) ∧
    assemble ("ldi r0, 127").toList = .ok (32 :: 127 :: List.replicate 62 0) ∧
    (∀ (op : Opcode) (reg : Register) (p : Nat),
      generate_io op reg p = none ↔ 15 < p) ∧
    (∀ (lm : LabelManager) (r : Register) (rs : Span) (v : Int) (s : Span),
      encode_instruction lm (.DoubleOperand .Jz (.register r rs) (.integer v s)) =
        .error (.genFailure (.JumpDestinationRangeError s)) ↔ 32 ≤ v) ∧
    parse_i8 ("200").toList = none ∧
    parse_i8 ("127").toList = some 127 := by
  refine ⟨by decide, by decide, by decide, by decide, by decide, by decide,
    ?_, ?_, by decide, by decide⟩
  · intro op reg p
    unfold generate_io
    split <;> simp_all
  · intro lm r rs v s
    simp only [encode_instruction, MAX_NUM_INSTRUCTIONS,
      INSTRUCTION_MEMORY_SIZE_BYTES, INSTRUCTION_SIZE_BYTES]
    split <;> simp_all

/-- C3: evaluation of the parser at the failing input: the program with
two label definitions, each followed by an instruction on its own line,
is rejected with ExpectedInstructionBeforeLabel at the second label,
because just_saw_label is set on the first label and never cleared. -/
theorem C3_code_behavior :
    parse ("a: nop\nb: nop").toList
        (filter_tokens (lex ("a: nop\nb: nop").toList)) =
      .error (.parseFailure (.ExpectedInstructionBeforeLabel
        ⟨.Label, ⟨7, 2⟩⟩)) := by
  decide

/-- C8: evaluation at the failing input: with the two-kind rule of J, a
non-matching operand token yields ExpectedOperand carrying the text
integer or integer (the source interpolates the first accepted kind
twice), which the diagnostic renders, instead of integer or label. -/
theorem C8_code_behavior :
    parse ("j ,").toList (filter_tokens (lex ("j ,").toList)) =
      .error (.parseFailure (.ExpectedOperand ⟨.Comma, ⟨2, 1⟩⟩
        ("integer or integer").toList)) ∧
    expected_description [OperandType.Integer, OperandType.Label] =
      some ("integer or integer").toList ∧
    parse_error_into_diagnostic ("j ,").toList
        (.ExpectedOperand ⟨.Comma, ⟨2, 1⟩⟩ ("integer or integer").toList) =
      ⟨("Expected instruction operand (one of integer or integer), found `,`").toList,
        some ⟨2, 1⟩⟩ ∧
    ("integer or integer").toList ≠ ("integer or label").toList := by
  refine ⟨by decide, by decide, by decide, by decide⟩

/-- C7: evaluation at the failing input: in the source consisting of a
semicolon, a two-byte character, a newline and a comma, the lexer gives
the comma token the character-index span 3 of length 1, whose lexeme is
the comma, but get_span slices bytes 3..4 of the five-byte UTF-8 buffer
and returns the newline byte 10 rather than the comma byte 44. -/
theorem C7_code_behavior :
    lex [';', 'é', '\n', ','] =
      [⟨.Comment, ⟨0, 2⟩⟩, ⟨.Newline, ⟨2, 1⟩⟩, ⟨.Comma, ⟨3, 1⟩⟩] ∧
    spanText [';', 'é', '\n', ','] ⟨3, 1⟩ = [','] ∧
    utf8Bytes [','] = [44] ∧
    get_span [';', 'é', '\n', ','] ⟨3, 1⟩ = some [10] ∧
    some ([10] : List Nat) ≠ some [44] := by
  refine ⟨by decide, by decide, by decide, by decide, by decide⟩

/-- C2: counterexample against the byte-offset reading: assembling the
forward-reference program resolves the label to 1 (the instruction
index), so the operand byte of the encoded j is 1, not 2. -/
theorem C2_counterexample :
    assemble ("j target\ntarget: nop").toList =
      .ok (240 :: 1 :: 0 :: 0 :: List.replicate 60 0) ∧
    (240 :: 1 :: 0 :: 0 :: List.replicate 60 0 : List Nat).get? 1 = some 1 ∧
    some (1 : Nat) ≠ some 2 := by
  refine ⟨by decide, by decide, by decide⟩

/-- C2 amended: a label resolves to the index of the instruction
immediately following it (the count of instructions before it), not its
byte offset: in the forward-reference program the j operand byte is 1 and
the label value after layout is 1, while in the lone definition program
the label value after layout is 0. -/
theorem C2_label_resolution_amended :
    assemble ("j target\ntarget: nop").toList =
      .ok (240 :: 1 :: 0 :: 0 :: List.replicate 60 0) ∧
    label_value_after_layout ("j target\ntarget: nop").toList 0 = some 1 ∧
    label_value_after_layout ("target: nop").toList 0 = some 0 := by
  refine ⟨by decide, by decide, by decide⟩

theorem instr_count_label (id : LabelId) (rest : List Item) :
    instr_count (Item.label id :: rest) = instr_count rest := by
  simp [instr_count, List.countP_cons]

theorem instr_count_instruction (i : Instruction) (rest : List Item) :
    instr_count (Item.instruction i :: rest) = instr_count rest + 1 := by
  simp [instr_count, List.countP_cons]

theorem max_num_instructions_eq : MAX_NUM_INSTRUCTIONS = 32 := by decide

/-- The second generator pass emits exactly two bytes per instruction. -/
theorem pass2_length (lm : LabelManager) :
    ∀ (items : List Item) (B : List Nat), pass2 lm items = .ok B →
      B.length = 2 * instr_count items := by
  intro items
  induction items with
  | nil =>
    intro B h
    simp only [pass2] at h
    cases h
    simp [instr_count]
  | cons head tail ih =>
    intro B h
    cases head with
    | label id =>
      rw [instr_count_label]
      exact ih B (by simpa [pass2] using h)
    | instruction i =>
      rw [instr_count_instruction]
      simp only [pass2] at h
      cases henc : encode_instruction lm i with
      | error e => rw [henc] at h; simp [Bind.bind, Except.bind] at h
      | ok p =>
        rw [henc] at h
        obtain ⟨b1, b2⟩ := p
        cases hrest : pass2 lm tail with
        | error e => rw [hrest] at h; simp [Bind.bind, Except.bind] at h
        | ok bs =>
          rw [hrest] at h
          simp only [Bind.bind, Except.bind, pure, Except.pure, Except.ok.injEq] at h
          subst h
          simp [ih bs hrest]
          ring

/-- A successful first pass bounds the instruction count by the maximum. -/
theorem pass1_count_le :
    ∀ (items : List Item) (lm : LabelManager) (ctr : Int) (e : Option LabelId)
      (lm2 : LabelManager), pass1 items lm ctr e = .ok lm2 → ctr ≤ 32 →
      ctr + instr_count items ≤ 32 := by
  intro items
  induction items with
  | nil =>
    intro lm ctr e lm2 _ hc
    simp only [instr_count, List.countP_nil]
    push_cast
    omega
  | cons head tail ih =>
    intro lm ctr e lm2 h hc
    cases head with
    | label id =>
      rw [instr_count_label]
      simp only [pass1] at h
      cases hset : lm.set_value_of id ctr with
      | none => rw [hset] at h; exact absurd h (by simp)
      | some lmx =>
        rw [hset] at h
        exact ih lmx ctr (some id) lm2 h hc
    | instruction i =>
      rw [instr_count_instruction]
      simp only [pass1, max_num_instructions_eq] at h
      by_cases hgt : ctr + 1 > 32
      · rw [if_pos hgt] at h; exact absurd h (by simp)
      · rw [if_neg hgt] at h
        have := ih lm (ctr + 1) none lm2 h (by omega)
        push_cast at this ⊢
        omega

/-- C1: whenever generation succeeds, the generated bytes are exactly two
per instruction, at most 32 instructions fit, and the padded image is 64
bytes whose first 2N bytes are the generated bytes and whose remaining
bytes are zero; assembling add r1, r2 yields 0x11 0x20 then 62 zeros. -/
theorem C1_fixed_image (items : List Item) (lm : LabelManager) (B : List Nat)
    (h : generate items lm = .ok B) :
    B.length = 2 * instr_count items ∧
    instr_count items ≤ 32 ∧
    (padTo64 B).length = 64 ∧
    (padTo64 B).take (2 * instr_count items) = B ∧
    (∀ b ∈ (padTo64 B).drop (2 * instr_count items), b = 0) ∧
    assemble ("add r1, r2").toList = .ok (17 :: 32 :: List.replicate 62 0) := by
  have hsplit : ∃ lm2, pass1 items lm 0 none = .ok lm2 ∧ pass2 lm2 items = .ok B := by
    unfold generate at h
    cases hp : pass1 items lm 0 none with
    | error e => rw [hp] at h; simp [Bind.bind, Except.bind] at h
    | ok lm2 =>
      refine ⟨lm2, rfl, ?_⟩
      rw [hp] at h
      simpa [Bind.bind, Except.bind] using h
  obtain ⟨lm2, hp1, hp2⟩ := hsplit
  have hlen : B.length = 2 * instr_count items := pass2_length lm2 items B hp2
  have hcnt : instr_count items ≤ 32 := by
    have := pass1_count_le items lm 0 none lm2 hp1 (by norm_num)
    omega
  refine ⟨hlen, hcnt, ?_, ?_, ?_, by decide⟩
  · unfold padTo64
    rw [List.length_append, List.length_replicate]
    omega
  · rw [← hlen]
    unfold padTo64
    exact List.take_left B _
  · rw [← hlen]
    unfold padTo64
    intro b hb
    rw [List.drop_left] at hb
    exact List.eq_of_mem_replicate hb

def addItem : Item :=
  Item.instruction (.DoubleOperand .Add (.register 1 ⟨4, 2⟩) (.register 2 ⟨8, 2⟩))

theorem C1_fixed_image_witness :
    ([17, 32] : List Nat).length = 2 * instr_count [addItem] ∧
    instr_count [addItem] ≤ 32 ∧
    (padTo64 [17, 32]).length = 64 ∧
    (padTo64 [17, 32]).take (2 * instr_count [addItem]) = [17, 32] ∧
    (∀ b ∈ (padTo64 [17, 32]).drop (2 * instr_count [addItem]), b = 0) ∧
    assemble ("add r1, r2").toList = .ok (17 :: 32 :: List.replicate 62 0) :=
  C1_fixed_image [addItem] ⟨[]⟩ [17, 32] (by decide)

/-- Every label id mentioned by a label item is a valid index into the
label table; the parser always hands the generator such a pair. -/
def valid_label_ids (items : List Item) (lm : LabelManager) : Bool :=
  items.all (fun i =>
    match i with
    | .label id => decide (id < lm.map.length)
    | .instruction _ => true)

theorem listModify_length :
    ∀ (l : List α) (i : Nat) (f : α → α), (listModify l i f).length = l.length := by
  intro l
  induction l with
  | nil => intro i f; rfl
  | cons a t ih => intro i f; cases i <;> simp [listModify, ih]

theorem length_set_value_of (lm lm2 : LabelManager) (id : LabelId) (v : Int)
    (h : lm.set_value_of id v = some lm2) : lm2.map.length = lm.map.length := by
  unfold LabelManager.set_value_of at h
  split at h
  · cases h
    exact listModify_length lm.map id _
  · exact absurd h (by simp)

theorem valid_label_ids_congr (items : List Item) (lm lm2 : LabelManager)
    (h : lm.map.length = lm2.map.length) :
    valid_label_ids items lm = valid_label_ids items lm2 := by
  simp only [valid_label_ids, h]

/-- The first pass fails with the maximum-instructions error exactly when
the instruction count pushes the counter past 32. -/
theorem pass1_max_iff :
    ∀ (items : List Item) (lm : LabelManager) (ctr : Int) (e : Option LabelId),
      valid_label_ids items lm = true → ctr ≤ 32 →
      (pass1 items lm ctr e = .error (.genFailure .MaximumInstructionsError) ↔
        32 < ctr + instr_count items) := by
  intro items
  induction items with
  | nil =>
    intro lm ctr e _ hc
    constructor
    · intro h
      simp only [pass1] at h
      cases e with
      | none => simp at h
      | some id =>
        cases hs : lm.get_span_of id with
        | none => simp [hs] at h
        | some s => simp [hs] at h
    · intro h
      exfalso
      simp only [instr_count, List.countP_nil] at h
      omega
  | cons head tail ih =>
    intro lm ctr e hv hc
    cases head with
    | label id =>
      have hvh : id < lm.map.length := by
        simp [valid_label_ids] at hv
        exact hv.1
      have hvt : valid_label_ids tail lm = true := by
        simp [valid_label_ids] at hv ⊢
        exact hv.2
      cases hset : lm.set_value_of id ctr with
      | none =>
        exfalso
        unfold LabelManager.set_value_of at hset
        rw [if_pos hvh] at hset
        cases hset
      | some lm2 =>
        simp only [pass1, hset]
        rw [instr_count_label]
        have hlen := length_set_value_of lm lm2 id ctr hset
        exact ih lm2 ctr (some id)
          (by rw [← valid_label_ids_congr tail lm lm2 hlen.symm]; exact hvt) hc
    | instruction i =>
      have hvt : valid_label_ids tail lm = true := by
        simp [valid_label_ids] at hv ⊢
        exact hv
      simp only [pass1, max_num_instructions_eq]
      rw [instr_count_instruction]
      by_cases hgt : ctr + 1 > 32
      · rw [if_pos hgt]
        simp
        omega
      · rw [if_neg hgt]
        rw [ih lm (ctr + 1) none hvt (by omega)]
        push_cast
        constructor <;> (intro h2; omega)

/-- No branch of the per-instruction encoder produces the
maximum-instructions error. -/
theorem encode_no_max (lm : LabelManager) (i : Instruction) :
    encode_instruction lm i ≠
      .error (.genFailure .MaximumInstructionsError) := by
  cases i <;> simp only [encode_instruction] <;> (repeat' split) <;> simp_all

/-- The second pass never produces the maximum-instructions error. -/
theorem pass2_no_max (lm : LabelManager) :
    ∀ items, pass2 lm items ≠
      .error (.genFailure .MaximumInstructionsError) := by
  intro items
  induction items with
  | nil => simp [pass2]
  | cons head tail ih =>
    cases head with
    | label id => simpa [pass2] using ih
    | instruction i =>
      simp only [pass2]
      intro h
      cases henc : encode_instruction lm i with
      | error e =>
        rw [henc] at h
        simp only [Bind.bind, Except.bind, Except.error.injEq] at h
        exact encode_no_max lm i (by rw [henc, h])
      | ok p =>
        rw [henc] at h
        obtain ⟨b1, b2⟩ := p
        cases hr : pass2 lm tail with
        | error e2 =>
          rw [hr] at h
          simp only [Bind.bind, Except.bind, Except.error.injEq] at h
          exact ih (by rw [hr, h])
        | ok bs =>
          rw [hr] at h
          simp [Bind.bind, Except.bind, pure, Except.pure] at h

def nops33 : List Char :=
  ("nop\nnop\nnop\nnop\nnop\nnop\nnop\nnop\nnop\nnop\nnop\nnop\nnop\nnop\nnop\nnop\nnop\nnop\nnop\nnop\nnop\nnop\nnop\nnop\nnop\nnop\nnop\nnop\nnop\nnop\nnop\nnop\nnop").toList

/-- C6: for any item sequence whose label ids are valid table indices (as
the parser guarantees), the generator fails with the maximum-instructions
error exactly when the instruction count exceeds 32, returning the bare
error and no bytes; the 33-nop program assembles to that error. -/
theorem C6_capacity (items : List Item) (lm : LabelManager)
    (h : valid_label_ids items lm = true) :
    (generate items lm = .error (.genFailure .MaximumInstructionsError) ↔
      32 < instr_count items) ∧
    assemble nops33 = .error (.genFailure .MaximumInstructionsError) := by
  refine ⟨?_, by set_option maxRecDepth 8192 in decide⟩
  constructor
  · intro hg
    have hpmax : pass1 items lm 0 none =
        .error (.genFailure .MaximumInstructionsError) := by
      unfold generate at hg
      cases hp : pass1 items lm 0 none with
      | error e2 =>
        rw [hp] at hg
        simp only [Bind.bind, Except.bind, Except.error.injEq] at hg
        rw [hg]
      | ok lm2 =>
        rw [hp] at hg
        simp only [Bind.bind, Except.bind] at hg
        exact absurd hg (pass2_no_max lm2 items)
    have := (pass1_max_iff items lm 0 none h (by norm_num)).mp hpmax
    omega
  · intro hcnt
    have hpmax := (pass1_max_iff items lm 0 none h (by norm_num)).mpr
      (by omega)
    unfold generate
    rw [hpmax]
    rfl

theorem C6_capacity_witness :
    (generate (List.replicate 33 (Item.instruction (.NoOperand .Nop))) ⟨[]⟩ =
        .error (.genFailure .MaximumInstructionsError) ↔
      32 < instr_count (List.replicate 33 (Item.instruction (.NoOperand .Nop)))) ∧
    assemble nops33 = .error (.genFailure .MaximumInstructionsError) :=
  C6_capacity (List.replicate 33 (Item.instruction (.NoOperand .Nop))) ⟨[]⟩
    (by decide)

/-- C10: the encoder emits a J instruction with an integer operand as-is
(opcode nibble 15, operand byte the raw 8-bit value), never produces the
jump-destination range error for any J operand, while Jz with an integer
target at or above 32 does produce it; j 100 assembles successfully. -/
theorem C10_j_unchecked (lm : LabelManager) (v : Int) (sp : Span)
    (o : Operand) (s2 : Span) (r : Register) (rs : Span) (v2 : Int) (s3 : Span)
    (h2 : (32 : Int) ≤ v2) :
    encode_instruction lm (.SingleOperand .J (.integer v sp)) =
      .ok (240, toU8 v) ∧
    encode_instruction lm (.SingleOperand .J o) ≠
      .error (.genFailure (.JumpDestinationRangeError s2)) ∧
    encode_instruction lm (.DoubleOperand .Jz (.register r rs) (.integer v2 s3)) =
      .error (.genFailure (.JumpDestinationRangeError s3)) ∧
    assemble ("j 100").toList = .ok (240 :: 100 :: List.replicate 62 0) := by
  refine ⟨rfl, ?_, ?_, by decide⟩
  · cases o with
    | register r2 s => simp [encode_instruction]
    | integer v3 s => simp [encode_instruction]
    | label id s =>
      simp only [encode_instruction]
      cases hval : lm.get_value_of id <;> simp [hval]
  · simp only [encode_instruction, max_num_instructions_eq]
    rw [if_neg (by omega)]

theorem C10_j_unchecked_witness :
    encode_instruction ⟨[]⟩ (.SingleOperand .J (.integer 100 ⟨2, 3⟩)) =
      .ok (240, toU8 100) ∧
    encode_instruction ⟨[]⟩ (.SingleOperand .J (.integer 100 ⟨2, 3⟩)) ≠
      .error (.genFailure (.JumpDestinationRangeError ⟨0, 0⟩)) ∧
    encode_instruction ⟨[]⟩
        (.DoubleOperand .Jz (.register 0 ⟨3, 2⟩) (.integer 32 ⟨7, 2⟩)) =
      .error (.genFailure (.JumpDestinationRangeError ⟨7, 2⟩)) ∧
    assemble ("j 100").toList = .ok (240 :: 100 :: List.replicate 62 0) :=
  C10_j_unchecked ⟨[]⟩ 100 ⟨2, 3⟩ (.integer 100 ⟨2, 3⟩) ⟨0, 0⟩ 0 ⟨3, 2⟩ 32 ⟨7, 2⟩
    (by norm_num)

theorem map_fix_of_map_eq_self :
    ∀ (l : List Char) (f : Char → Char), l.map f = l → ∀ x ∈ l, f x = x := by
  intro l f
  induction l with
  | nil => intro _ x hx; cases hx
  | cons a t ih =>
    intro h x hx
    rw [List.map_cons, List.cons.injEq] at h
    rcases List.mem_cons.mp hx with hxa | hxt
    · rw [hxa]; exact h.1
    · exact ih h.2 x hxt

theorem toLower_ne_of_mem_upper (c : Char)
    (h : c ∈ ("ABCDEFGHIJKLMNOPQRSTUVWXYZ").toList) : Char.toLower c ≠ c := by
  fin_cases h <;> decide

/-- A name containing an uppercase ASCII letter is changed by lowering. -/
theorem toLowerStr_ne (s : List Char)
    (hu : s.any (fun c => c ∈ ("ABCDEFGHIJKLMNOPQRSTUVWXYZ").toList) = true) :
    toLowerStr s ≠ s := by
  obtain ⟨c, hc, hcu⟩ := List.any_eq_true.mp hu
  intro heq
  exact toLower_ne_of_mem_upper c (of_decide_eq_true hcu)
    (map_fix_of_map_eq_self s Char.toLower heq c hc)

/-- Inserting or finding a reference under the lowercased name never
creates or reveals an entry under the differently spelled original. -/
theorem get_id_of_after_reference (lm : LabelManager) (s : List Char)
    (hne : toLowerStr s ≠ s) (hn : lm.get_id_of s = none) :
    ((lm.get_or_insert_reference (toLowerStr s)).2).get_id_of s = none := by
  unfold LabelManager.get_or_insert_reference
  split
  · exact hn
  · simp only [LabelManager.get_id_of] at hn ⊢
    rw [List.findIdx?_append, hn]
    simp [List.findIdx?_cons, hne]

/-- C9: a label definition is stored under its original spelling while a
reference is lowercased first, so a reference under the lowered name
leaves a lookup under an uppercase spelling empty; concretely, j Foo with
Foo: nop parses into two distinct table rows (foo as a bare reference and
Foo as the definition) and assembly fails with the undefined-label error
at the reference. -/
theorem C9_label_case_mismatch (s : List Char) (lm : LabelManager)
    (hu : s.any (fun c => c ∈ ("ABCDEFGHIJKLMNOPQRSTUVWXYZ").toList) = true)
    (hn : lm.get_id_of s = none) :
    toLowerStr s ≠ s ∧
    ((lm.get_or_insert_reference (toLowerStr s)).2).get_id_of s = none ∧
    parse ("j Foo\nFoo: nop").toList
        (filter_tokens (lex ("j Foo\nFoo: nop").toList)) =
      .ok ([Item.instruction (.SingleOperand .J (.label 0 ⟨2, 3⟩)),
            Item.label 1,
            Item.instruction (.NoOperand .Nop)],
        ⟨[⟨("foo").toList, none, none⟩, ⟨("Foo").toList, some ⟨6, 4⟩, none⟩]⟩) ∧
    assemble ("j Foo\nFoo: nop").toList =
      .error (.genFailure (.UndefinedLabelError ⟨2, 3⟩)) := by
  have hne := toLowerStr_ne s hu
  exact ⟨hne, get_id_of_after_reference lm s hne hn, by decide, by decide⟩

theorem C9_label_case_mismatch_witness :
    toLowerStr ("Foo").toList ≠ ("Foo").toList ∧
    ((LabelManager.mk []).get_or_insert_reference
        (toLowerStr ("Foo").toList)).2.get_id_of ("Foo").toList = none ∧
    parse ("j Foo\nFoo: nop").toList
        (filter_tokens (lex ("j Foo\nFoo: nop").toList)) =
      .ok ([Item.instruction (.SingleOperand .J (.label 0 ⟨2, 3⟩)),
            Item.label 1,
            Item.instruction (.NoOperand .Nop)],
        ⟨[⟨("foo").toList, none, none⟩, ⟨("Foo").toList, some ⟨6, 4⟩, none⟩]⟩) ∧
    assemble ("j Foo\nFoo: nop").toList =
      .error (.genFailure (.UndefinedLabelError ⟨2, 3⟩)) :=
  C9_label_case_mismatch ("Foo").toList ⟨[]⟩ (by decide) (by decide)

end Brisc
